import Mathlib

/-!
Verification of the document store in `docs-db.js` (`DocumentDB`).

The JavaScript code is shallowly embedded: JS structured values become the
inductive `Value`, the IndexedDB object store becomes an explicit `DBState`
(list of records plus the auto-increment key counter), and each async
operation becomes a pure function returning `Except DBError _`.  Validation
checks are translated literally from the `!x || typeof x !== ...` guards of
the source.
-/

namespace DocsDB

/-- JS-like structured values: `null`, booleans, numbers, strings, arrays and
plain objects (ordered key/value lists, as iterated by `Object.entries`). -/
inductive Value where
  | vnull : Value
  | vbool : Bool → Value
  | vnum : Int → Value
  | vstr : String → Value
  | varr : List Value → Value
  | vobj : List (String × Value) → Value

/-- Global single-character replacement: the effect of
`String.prototype.replace(/c/g, t)` when the pattern is one character. -/
def replaceAllChar (c : Char) (t : List Char) : List Char → List Char
  | [] => []
  | ch :: rest => (if ch = c then t else [ch]) ++ replaceAllChar c t rest

/-- The quote character `"` (written via its code point to keep character
literals unambiguous). -/
def quotChar : Char := Char.ofNat 34

/-- The apostrophe character. -/
def aposChar : Char := Char.ofNat 39

/-- The five chained replacements of `sanitizeData` (docs-db.js lines 69-74),
applied in the source order: `<`, `>`, `"`, `'`, `/`. -/
def escapeChars (s : List Char) : List Char :=
  replaceAllChar '/' "&#x2F;".data
    (replaceAllChar aposChar "&#x27;".data
      (replaceAllChar quotChar "&quot;".data
        (replaceAllChar '>' "&gt;".data
          (replaceAllChar '<' "&lt;".data s))))

/-- String form of the escaping chain. -/
def escapeHtml (s : String) : String := String.mk (escapeChars s.data)

mutual

/-- Embedding of `DocumentDB.sanitizeData` (docs-db.js lines 61-87).
A non-object (or `null`, which is falsy) is returned as-is; otherwise the
function iterates `Object.entries` of its argument into a fresh plain object
`{}` — so an array argument is converted to an object keyed by the decimal
string indices that `Object.entries` yields for it. -/
def sanitizeData : Value → Value
  | Value.varr xs => Value.vobj (sanitizeArrEntries 0 xs)
  | Value.vobj kvs => Value.vobj (sanitizeEntries kvs)
  | v => v

/-- The `for (const [key, value] of Object.entries(data))` loop over an object
argument: each value is transformed by the per-entry branch. -/
def sanitizeEntries : List (String × Value) → List (String × Value)
  | [] => []
  | (k, v) :: rest => (k, sanitizeValue v) :: sanitizeEntries rest

/-- The same entries loop over an array argument: `Object.entries` of a JS
array yields `["0", a0], ["1", a1], ...`, collected into a plain object. -/
def sanitizeArrEntries : Nat → List Value → List (String × Value)
  | _, [] => []
  | i, v :: rest => (toString i, sanitizeValue v) :: sanitizeArrEntries (i + 1) rest

/-- The per-entry branch of the loop body (lines 67-83):
strings are escaped, arrays are mapped element-wise, non-null objects are
recursively sanitized (`this.sanitizeData(value)` unfolded one step), and
everything else is copied. -/
def sanitizeValue : Value → Value
  | Value.vstr s => Value.vstr (escapeHtml s)
  | Value.varr xs => Value.varr (sanitizeItems xs)
  | Value.vobj kvs => Value.vobj (sanitizeEntries kvs)
  | v => v

/-- The `value.map` traversal of an array entry, sending each item of type
object through `sanitizeData` and keeping other items raw. -/
def sanitizeItems : List Value → List Value
  | [] => []
  | it :: rest => sanitizeItem it :: sanitizeItems rest

/-- One array element: the `typeof` object test holds exactly for arrays,
objects and `null`, and those go through `sanitizeData` (unfolded one step:
`sanitizeData null = null`, an array becomes an indexed object, an object is
sanitized entry-wise); strings and other scalars are kept raw. -/
def sanitizeItem : Value → Value
  | Value.varr xs => Value.vobj (sanitizeArrEntries 0 xs)
  | Value.vobj kvs => Value.vobj (sanitizeEntries kvs)
  | v => v

end

/-- The list of the five characters rewritten by the sanitizer. -/
def specialChars : List Char := ['<', '>', quotChar, aposChar, '/']

/-- JS truthiness of a structured value (`NaN` and `-0` are outside the `Int`
number model; every array or object, even empty, is truthy). -/
def Value.truthy : Value → Bool
  | Value.vnull => false
  | Value.vbool b => b
  | Value.vnum n => decide (n ≠ 0)
  | Value.vstr s => decide (s ≠ "")
  | Value.varr _ => true
  | Value.vobj _ => true

/-- JS property access `v.k` as far as the store uses it: defined on plain
objects (first binding of the key), `undefined` (here `none`) elsewhere —
in particular on arrays, whose prototype has no such property. -/
def getProp : Value → String → Option Value
  | Value.vobj kvs, k => List.lookup k kvs
  | _, _ => none

/-- The default expression `data.docType` with default `"unknown"` (docs-db.js line 124):
the raw property value when truthy, the string `"unknown"` otherwise (also
when the property is absent). -/
def jsOrDefault (v : Option Value) (dflt : String) : Value :=
  match v with
  | some w => if w.truthy then w else Value.vstr dflt
  | none => Value.vstr dflt

/-- JS `String.prototype.trim()`: strip whitespace from both ends. -/
def jsTrim (s : String) : String :=
  String.mk (((s.data.dropWhile Char.isWhitespace).reverse.dropWhile
    Char.isWhitespace).reverse)

/-- The guard `!x` or a failing string `typeof` test fails to throw exactly on truthy
strings, i.e. non-empty strings. -/
def isNonEmptyString : Value → Bool
  | Value.vstr s => decide (s ≠ "")
  | _ => false

/-- The guard `!data` or a failing object `typeof` test fails to throw exactly on
truthy values of type `object`: arrays and plain objects (`null` has type
`object` but is falsy). -/
def isTruthyObject : Value → Bool
  | Value.varr _ => true
  | Value.vobj _ => true
  | _ => false

/-- The guard `!id` or a failing string-or-number `typeof` test
of `getById`/`delete` fails to throw exactly on non-empty strings and nonzero
numbers — the falsy number `0` is rejected. -/
def isValidId : Value → Bool
  | Value.vstr s => decide (s ≠ "")
  | Value.vnum n => decide (n ≠ 0)
  | _ => false

/-- A persisted document record, as assembled by `save`
(docs-db.js lines 117-125).  The primary key `id` is the auto-increment key
the object store assigns on `add`. -/
structure DocRecord where
  id : Nat
  docId : String
  title : String
  data : Value
  userId : String
  timestamp : Nat
  createdAt : String
  docType : Value

/-- The `documents` object store: its records in insertion (= primary key)
order together with the auto-increment key generator, which starts at 1. -/
structure DBState where
  records : List DocRecord
  nextId : Nat

/-- Errors surfaced by the store; the claims only exercise the synchronous
validation throws (messages "Invalid ... provided"). -/
inductive DBError where
  | validationError : String → DBError
  deriving DecidableEq

/-- IndexedDB key comparison between the id argument and a stored
auto-increment (numeric) primary key: a string argument never equals a
numeric key. -/
def keyEq (id : Value) (recId : Nat) : Bool :=
  match id with
  | Value.vnum n => decide (n = (recId : Int))
  | _ => false

/-- Invariant of an object store populated through `save`: the key generator
is at least 1, past keys are below it and every assigned key is positive. -/
def StateWF (st : DBState) : Prop :=
  1 ≤ st.nextId ∧ ∀ r ∈ st.records, 0 < r.id ∧ r.id < st.nextId

/-- Embedding of `DocumentDB.save` (docs-db.js lines 92-151).  The four validation guards
run first, in source order, before any database I/O; then the record is
assembled from the trimmed strings, the sanitized data and the raw
`data.docType`, and `store.add` assigns the next auto-increment key, which is
resolved to the caller. -/
def save (docId title data userId : Value) (now : Nat) (createdAt : String)
    (st : DBState) : Except DBError (Nat × DBState) :=
  if ¬ isNonEmptyString docId then
    Except.error (DBError.validationError "Invalid docId provided")
  else if ¬ isNonEmptyString title then
    Except.error (DBError.validationError "Invalid title provided")
  else if ¬ isTruthyObject data then
    Except.error (DBError.validationError "Invalid data provided")
  else if ¬ isNonEmptyString userId then
    Except.error (DBError.validationError "Invalid userId provided")
  else
    let doc : DocRecord :=
      { id := st.nextId
        docId := jsTrim (asString docId)
        title := jsTrim (asString title)
        data := sanitizeData data
        userId := jsTrim (asString userId)
        timestamp := now
        createdAt := createdAt
        docType := jsOrDefault (getProp data "docType") "unknown" }
    Except.ok (st.nextId, { records := st.records ++ [doc], nextId := st.nextId + 1 })
where
  /-- Extract the string payload; the guards guarantee the argument is a
  string wherever this is used. -/
  asString : Value → String
    | Value.vstr s => s
    | _ => ""

/-- Embedding of `DocumentDB.getByUser` (docs-db.js lines 156-189): validate, query the
`userId` index for an exact match on the trimmed value (the index yields the
matching records in primary-key order, i.e. store order), then sort by the
comparator `(a, b) => b.timestamp - a.timestamp` — a stable sort placing
larger timestamps first. -/
def getByUser (userId : Value) (st : DBState) : Except DBError (List DocRecord) :=
  if ¬ isNonEmptyString userId then
    Except.error (DBError.validationError "Invalid userId provided")
  else
    Except.ok ((st.records.filter
        (fun r => decide (r.userId = jsTrim (save.asString userId)))).mergeSort
      (fun a b => decide (b.timestamp ≤ a.timestamp)))

/-- Embedding of `DocumentDB.getById` (docs-db.js lines 194-223): validate, then a direct
primary-key `store.get`; `request.result || null` resolves the found record
or the `null` sentinel (`none`). -/
def getById (id : Value) (st : DBState) : Except DBError (Option DocRecord) :=
  if ¬ isValidId id then
    Except.error (DBError.validationError "Invalid id provided")
  else
    Except.ok (st.records.find? (fun r => keyEq id r.id))

/-- Embedding of `DocumentDB.delete` (docs-db.js lines 228-260): validate, then
`store.delete(id)` in a read-write transaction; the transaction commits (and
the promise resolves) whether or not a record with that key existed. -/
def delete (id : Value) (st : DBState) : Except DBError DBState :=
  if ¬ isValidId id then
    Except.error (DBError.validationError "Invalid id provided")
  else
    Except.ok { st with records := st.records.filter (fun r => ¬ keyEq id r.id) }

/-- Embedding of `DocumentDB.clearUserDocuments` (docs-db.js lines 265-280): validate,
read the records of the user via `getByUser`, issue one `delete` per record (the
deletes touch pairwise distinct keys, so their concurrent execution is
modelled sequentially), and return the count read. -/
def clearUserDocuments (userId : Value) (st : DBState) :
    Except DBError (Nat × DBState) :=
  if ¬ isNonEmptyString userId then
    Except.error (DBError.validationError "Invalid userId provided")
  else do
    let docs ← getByUser userId st
    let st2 ← docs.foldlM (fun s d => delete (Value.vnum (d.id : Int)) s) st
    pure (docs.length, st2)

/-- The state change of one successful `delete` of the key of record `d`: exactly
the body of `delete` with its validation already passed. -/
def deleteStep (s : DBState) (d : DocRecord) : DBState :=
  ⟨s.records.filter (fun r => ¬ keyEq (Value.vnum (d.id : Int)) r.id), s.nextId⟩

/-- On a non-null object, `sanitizeValue` is literally `sanitizeData`. -/
theorem sanitizeValue_obj_eq_sanitizeData (kvs : List (String × Value)) :
    sanitizeValue (Value.vobj kvs) = sanitizeData (Value.vobj kvs) := rfl

/-- On an array, `sanitizeItem` is literally `sanitizeData`. -/
theorem sanitizeItem_arr_eq_sanitizeData (xs : List Value) :
    sanitizeItem (Value.varr xs) = sanitizeData (Value.varr xs) := rfl

/-- On `null`, `sanitizeItem` agrees with `sanitizeData null = null`. -/
theorem sanitizeItem_null_eq_sanitizeData :
    sanitizeItem Value.vnull = sanitizeData Value.vnull := rfl

/-- Replacing a character that does not occur is a no-op. -/
theorem replaceAllChar_of_not_mem (c : Char) (t : List Char) :
    ∀ s : List Char, (∀ ch ∈ s, ch ≠ c) → replaceAllChar c t s = s
  | [], _ => rfl
  | ch :: rest, h => by
    have hch : ch ≠ c := h ch (List.mem_cons_self ch rest)
    have hrest := replaceAllChar_of_not_mem c t rest
      (fun a ha => h a (List.mem_cons_of_mem ch ha))
    simp [replaceAllChar, hch, hrest]

/-- Every character of a replacement result comes from the replacement text or
is a surviving (hence different from the pattern) character of the input. -/
theorem mem_replaceAllChar (c : Char) (t : List Char) :
    ∀ s : List Char, ∀ ch ∈ replaceAllChar c t s, ch ∈ t ∨ (ch ∈ s ∧ ch ≠ c)
  | [], ch, h => by simp [replaceAllChar] at h
  | a :: rest, ch, h => by
    rw [replaceAllChar] at h
    rcases List.mem_append.mp h with h1 | h2
    · by_cases hac : a = c
      · left
        simpa [hac] using h1
      · right
        simp [hac] at h1
        exact ⟨h1 ▸ List.mem_cons_self a rest, h1 ▸ hac⟩
    · rcases mem_replaceAllChar c t rest ch h2 with ht | ⟨hm, hne⟩
      · exact Or.inl ht
      · exact Or.inr ⟨List.mem_cons_of_mem a hm, hne⟩

/-- No output of the escaping chain contains any of the five special
characters: each pass removes its own character and no replacement text
reintroduces any of the five. -/
theorem escapeChars_no_special (s : List Char) :
    ∀ ch ∈ escapeChars s, ch ∉ specialChars := by
  intro ch h
  rw [escapeChars] at h
  rcases mem_replaceAllChar _ _ _ ch h with h5 | ⟨h, hne5⟩
  · fin_cases h5 <;> decide
  rcases mem_replaceAllChar _ _ _ ch h with h4 | ⟨h, hne4⟩
  · fin_cases h4 <;> decide
  rcases mem_replaceAllChar _ _ _ ch h with h3 | ⟨h, hne3⟩
  · fin_cases h3 <;> decide
  rcases mem_replaceAllChar _ _ _ ch h with h2 | ⟨h, hne2⟩
  · fin_cases h2 <;> decide
  rcases mem_replaceAllChar _ _ _ ch h with h1 | ⟨h, hne1⟩
  · fin_cases h1 <;> decide
  intro hmem
  simp only [specialChars, List.mem_cons, List.not_mem_nil, or_false] at hmem
  rcases hmem with rfl | rfl | rfl | rfl | rfl
  · exact hne1 rfl
  · exact hne2 rfl
  · exact hne3 rfl
  · exact hne4 rfl
  · exact hne5 rfl

/-- The escaping chain is idempotent: its output contains none of the five
characters, so a second application rewrites nothing. -/
theorem escapeChars_idem (s : List Char) :
    escapeChars (escapeChars s) = escapeChars s := by
  have hno := escapeChars_no_special s
  have h1 : ∀ ch ∈ escapeChars s, ch ≠ '<' := by
    intro ch h
    have := hno ch h
    simp [specialChars] at this
    exact this.1
  have h2 : ∀ ch ∈ escapeChars s, ch ≠ '>' := by
    intro ch h
    have := hno ch h
    simp [specialChars] at this
    exact this.2.1
  have h3 : ∀ ch ∈ escapeChars s, ch ≠ quotChar := by
    intro ch h
    have := hno ch h
    simp [specialChars] at this
    exact this.2.2.1
  have h4 : ∀ ch ∈ escapeChars s, ch ≠ aposChar := by
    intro ch h
    have := hno ch h
    simp [specialChars] at this
    exact this.2.2.2.1
  have h5 : ∀ ch ∈ escapeChars s, ch ≠ '/' := by
    intro ch h
    have := hno ch h
    simp [specialChars] at this
    exact this.2.2.2.2
  conv_lhs => rw [escapeChars]
  rw [replaceAllChar_of_not_mem _ _ _ h1, replaceAllChar_of_not_mem _ _ _ h2,
    replaceAllChar_of_not_mem _ _ _ h3, replaceAllChar_of_not_mem _ _ _ h4,
    replaceAllChar_of_not_mem _ _ _ h5]

/-- String form of idempotence of the escaping chain. -/
theorem escapeHtml_idem (s : String) : escapeHtml (escapeHtml s) = escapeHtml s := by
  unfold escapeHtml
  exact congrArg String.mk (escapeChars_idem s.data)

mutual

/-- The per-entry transform is idempotent. -/
theorem sanitizeValue_idem : ∀ v : Value, sanitizeValue (sanitizeValue v) = sanitizeValue v
  | Value.vnull => rfl
  | Value.vbool _ => rfl
  | Value.vnum _ => rfl
  | Value.vstr s => by
    simp [sanitizeValue, escapeHtml_idem s]
  | Value.varr xs => by
    simp [sanitizeValue, sanitizeItems_idem xs]
  | Value.vobj kvs => by
    simp [sanitizeValue, sanitizeEntries_idem kvs]

/-- Entry-wise sanitization of an object is idempotent. -/
theorem sanitizeEntries_idem :
    ∀ kvs : List (String × Value), sanitizeEntries (sanitizeEntries kvs) = sanitizeEntries kvs
  | [] => rfl
  | (k, v) :: rest => by
    simp [sanitizeEntries, sanitizeValue_idem v, sanitizeEntries_idem rest]

/-- A second entry-wise pass over the object built from an array changes
nothing. -/
theorem sanitizeEntries_arrEntries :
    ∀ (i : Nat) (xs : List Value),
      sanitizeEntries (sanitizeArrEntries i xs) = sanitizeArrEntries i xs
  | _, [] => rfl
  | i, v :: rest => by
    simp [sanitizeArrEntries, sanitizeEntries, sanitizeValue_idem v,
      sanitizeEntries_arrEntries (i + 1) rest]

/-- Element-wise sanitization of an array is idempotent. -/
theorem sanitizeItems_idem :
    ∀ xs : List Value, sanitizeItems (sanitizeItems xs) = sanitizeItems xs
  | [] => rfl
  | it :: rest => by
    simp [sanitizeItems, sanitizeItem_idem it, sanitizeItems_idem rest]

/-- The array-element transform is idempotent. -/
theorem sanitizeItem_idem : ∀ v : Value, sanitizeItem (sanitizeItem v) = sanitizeItem v
  | Value.vnull => rfl
  | Value.vbool _ => rfl
  | Value.vnum _ => rfl
  | Value.vstr _ => rfl
  | Value.varr xs => by
    simp [sanitizeItem, sanitizeEntries_arrEntries 0 xs]
  | Value.vobj kvs => by
    simp [sanitizeItem, sanitizeEntries_idem kvs]

end

/-- The entries loop over an object maps the per-entry transform over the
values, keeping every key in place. -/
theorem sanitizeEntries_eq_map :
    ∀ kvs : List (String × Value),
      sanitizeEntries kvs = kvs.map (fun kv => (kv.1, sanitizeValue kv.2))
  | [] => rfl
  | (k, v) :: rest => by
    simp [sanitizeEntries, sanitizeEntries_eq_map rest]

/-- The array-entry traversal maps the element transform over the list. -/
theorem sanitizeItems_eq_map :
    ∀ xs : List Value, sanitizeItems xs = xs.map sanitizeItem
  | [] => rfl
  | it :: rest => by
    simp [sanitizeItems, sanitizeItems_eq_map rest]

/-- The entries loop over an array builds the indexed object: decimal index
keys `i, i+1, ...` zipped with the transformed elements. -/
theorem sanitizeArrEntries_eq_zip :
    ∀ (i : Nat) (xs : List Value),
      sanitizeArrEntries i xs =
        ((List.range' i xs.length).map (fun j => toString j)).zip
          (xs.map sanitizeValue)
  | _, [] => rfl
  | i, v :: rest => by
    simp [sanitizeArrEntries, List.range', sanitizeArrEntries_eq_zip (i + 1) rest]

/-- Key lookup commutes with entry-wise sanitization. -/
theorem lookup_sanitizeEntries (k : String) :
    ∀ kvs : List (String × Value),
      List.lookup k (sanitizeEntries kvs) =
        (List.lookup k kvs).map (fun v => sanitizeValue v)
  | [] => rfl
  | (k1, v) :: rest => by
    by_cases hk : k = k1
    · simp [sanitizeEntries, List.lookup, hk]
    · have hbeq : (k == k1) = false := beq_eq_false_iff_ne.mpr hk
      simp [sanitizeEntries, List.lookup, hbeq, lookup_sanitizeEntries k rest]

/-- C3: for every structured input `v`, applying `sanitizeData` twice gives
the same result as applying it once — `sanitizeData (sanitizeData v) =
sanitizeData v`. -/
theorem sanitizeData_idem (v : Value) :
    sanitizeData (sanitizeData v) = sanitizeData v := by
  cases v with
  | vnull => rfl
  | vbool b => rfl
  | vnum n => rfl
  | vstr s => rfl
  | varr xs => simp [sanitizeData, sanitizeEntries_arrEntries]
  | vobj kvs => simp [sanitizeData, sanitizeEntries_idem]

/-- C2 counterexample: the function `sanitizeData` is not the claimed shape-preserving
escaping.  A top-level string keeps its raw `/` (though the escaper would
rewrite it), a top-level array is turned into a plain object keyed by `"0"`,
and inside an array both a string element (raw `/` kept) and a nested array
(turned into an object) contradict the claim. -/
theorem sanitize_shape_counterexample :
    sanitizeData (Value.vstr "a/b") = Value.vstr "a/b"
    ∧ escapeHtml "a/b" = "a&#x2F;b"
    ∧ "a/b" ≠ "a&#x2F;b"
    ∧ sanitizeData (Value.varr [Value.vnum 1]) = Value.vobj [("0", Value.vnum 1)]
    ∧ sanitizeData (Value.vobj [("k", Value.varr [Value.vstr "a/b", Value.varr []])])
        = Value.vobj [("k", Value.varr [Value.vstr "a/b", Value.vobj []])] :=
  ⟨rfl, by decide, by decide, rfl, rfl⟩

/-- C2 amended: the function `sanitizeData` returns any non-object top-level input
(strings included) unchanged; a top-level mapping stays a mapping with its
keys preserved in order and values transformed; a top-level sequence becomes
a mapping keyed by the decimal indices; inside a mapping a string value is
escaped (the five characters in the fixed source order), a sequence value
stays a sequence of the same length whose structured elements are recursively
sanitized (nested sequences thereby becoming mappings) while string and other
scalar elements pass through raw, and non-string scalars are unchanged. -/
theorem sanitize_shape_amended :
    (∀ s, sanitizeData (Value.vstr s) = Value.vstr s)
    ∧ (∀ b, sanitizeData (Value.vbool b) = Value.vbool b)
    ∧ (∀ n, sanitizeData (Value.vnum n) = Value.vnum n)
    ∧ sanitizeData Value.vnull = Value.vnull
    ∧ (∀ kvs, sanitizeData (Value.vobj kvs) =
        Value.vobj (kvs.map (fun kv => (kv.1, sanitizeValue kv.2))))
    ∧ (∀ xs, sanitizeData (Value.varr xs) =
        Value.vobj (((List.range' 0 xs.length).map (fun j => toString j)).zip
          (xs.map sanitizeValue)))
    ∧ (∀ s, sanitizeValue (Value.vstr s) = Value.vstr (escapeHtml s))
    ∧ (∀ xs, sanitizeValue (Value.varr xs) = Value.varr (xs.map sanitizeItem))
    ∧ (∀ kvs, sanitizeValue (Value.vobj kvs) = sanitizeData (Value.vobj kvs))
    ∧ (∀ n, sanitizeValue (Value.vnum n) = Value.vnum n)
    ∧ (∀ b, sanitizeValue (Value.vbool b) = Value.vbool b)
    ∧ sanitizeValue Value.vnull = Value.vnull
    ∧ (∀ s, sanitizeItem (Value.vstr s) = Value.vstr s)
    ∧ (∀ n, sanitizeItem (Value.vnum n) = Value.vnum n)
    ∧ (∀ xs, sanitizeItem (Value.varr xs) = sanitizeData (Value.varr xs))
    ∧ (∀ kvs, sanitizeItem (Value.vobj kvs) = sanitizeData (Value.vobj kvs)) := by
  refine ⟨fun s => rfl, fun b => rfl, fun n => rfl, rfl, ?_, ?_, fun s => rfl,
    ?_, fun kvs => rfl, fun n => rfl, fun b => rfl, rfl, fun s => rfl,
    fun n => rfl, fun xs => rfl, fun kvs => rfl⟩
  · intro kvs
    simp [sanitizeData, sanitizeEntries_eq_map]
  · intro xs
    simp [sanitizeData, sanitizeArrEntries_eq_zip]
  · intro xs
    simp [sanitizeValue, sanitizeItems_eq_map]

/-- A stored record whose key is below the key generator never matches the
freshly generated key. -/
theorem find?_old_records_eq_none (st : DBState) (hwf : StateWF st) :
    st.records.find? (fun r => keyEq (Value.vnum (st.nextId : Int)) r.id) = none := by
  apply List.find?_eq_none.mpr
  intro r hr
  have hlt := (hwf.2 r hr).2
  simp only [keyEq, decide_eq_true_eq]
  intro hEq
  have : st.nextId = r.id := by exact_mod_cast hEq
  omega

/-- C1: a valid `save(docId, title, data, userId)` stores one new record
under the generated key, and `getById` on that key returns a record whose
`docId`, `title` and `userId` are the trimmed inputs (the title raw,
unsanitized) and whose `data` is `sanitizeData data`. -/
theorem save_getById_roundtrip (d t u : String) (data : Value) (now : Nat)
    (ca : String) (st : DBState) (hwf : StateWF st) (hd : d ≠ "") (ht : t ≠ "")
    (hu : u ≠ "") (hdata : isTruthyObject data = true) :
    ∃ st2, save (Value.vstr d) (Value.vstr t) data (Value.vstr u) now ca st
        = Except.ok (st.nextId, st2)
      ∧ getById (Value.vnum (st.nextId : Int)) st2 =
          Except.ok (some
            { id := st.nextId
              docId := jsTrim d
              title := jsTrim t
              data := sanitizeData data
              userId := jsTrim u
              timestamp := now
              createdAt := ca
              docType := jsOrDefault (getProp data "docType") "unknown" }) := by
  have hid : st.nextId ≠ 0 := by
    have := hwf.1
    omega
  refine ⟨⟨st.records ++
      [⟨st.nextId, jsTrim d, jsTrim t, sanitizeData data, jsTrim u, now, ca,
        jsOrDefault (getProp data "docType") "unknown"⟩],
      st.nextId + 1⟩, ?_, ?_⟩
  · simp [save, isNonEmptyString, hd, ht, hu, hdata, save.asString]
  · have hvalid : isValidId (Value.vnum (st.nextId : Int)) = true := by
      simp [isValidId]
      exact_mod_cast hid
    simp only [getById, hvalid, not_true, if_false]
    rw [List.find?_append, find?_old_records_eq_none st hwf]
    simp [keyEq]

/-- C1 witness: the roundtrip at a concrete valid call on the empty store. -/
theorem save_getById_roundtrip_witness :
    ∃ st2, save (Value.vstr "a") (Value.vstr "b") (Value.vobj [])
        (Value.vstr "c") 0 "" ⟨[], 1⟩ = Except.ok (1, st2)
      ∧ getById (Value.vnum 1) st2 =
          Except.ok (some
            { id := 1
              docId := jsTrim "a"
              title := jsTrim "b"
              data := sanitizeData (Value.vobj [])
              userId := jsTrim "c"
              timestamp := 0
              createdAt := ""
              docType := jsOrDefault (getProp (Value.vobj []) "docType") "unknown" }) :=
  save_getById_roundtrip "a" "b" "c" (Value.vobj []) 0 "" ⟨[], 1⟩
    ⟨Nat.le_refl 1, fun r hr => absurd hr (List.not_mem_nil r)⟩
    (by decide) (by decide) (by decide) rfl

/-- The timestamp comparator is transitive. -/
theorem tsLe_trans (a b c : DocRecord) :
    decide (b.timestamp ≤ a.timestamp) = true →
    decide (c.timestamp ≤ b.timestamp) = true →
    decide (c.timestamp ≤ a.timestamp) = true := by
  simp only [decide_eq_true_eq]
  omega

/-- The timestamp comparator is total. -/
theorem tsLe_total (a b : DocRecord) :
    (decide (b.timestamp ≤ a.timestamp) || decide (a.timestamp ≤ b.timestamp)) = true := by
  simp only [Bool.or_eq_true, decide_eq_true_eq]
  exact Nat.le_total _ _

/-- C4: for every non-empty `userId`, `getByUser` succeeds and returns
exactly the records whose `userId` equals the trimmed argument, in
non-increasing timestamp order; with no match it returns the empty list
rather than an error. -/
theorem getByUser_spec (u : String) (st : DBState) (hu : u ≠ "") :
    ∃ l, getByUser (Value.vstr u) st = Except.ok l
      ∧ l.Perm (st.records.filter (fun r => decide (r.userId = jsTrim u)))
      ∧ l.Pairwise (fun a b => b.timestamp ≤ a.timestamp)
      ∧ (st.records.filter (fun r => decide (r.userId = jsTrim u)) = [] → l = []) := by
  have hvalid : isNonEmptyString (Value.vstr u) = true := by
    simp [isNonEmptyString, hu]
  refine ⟨(st.records.filter (fun r => decide (r.userId = jsTrim u))).mergeSort
    (fun a b => decide (b.timestamp ≤ a.timestamp)), ?_, ?_, ?_, ?_⟩
  · simp [getByUser, hvalid, save.asString]
  · exact List.mergeSort_perm _ _
  · exact (List.sorted_mergeSort tsLe_trans tsLe_total _).imp
      (fun h => by simpa using h)
  · intro h
    rw [h]
    exact List.mergeSort_nil

/-- C4 witness: the property at a concrete user on the empty store. -/
theorem getByUser_spec_witness :
    ∃ l, getByUser (Value.vstr "x") ⟨[], 1⟩ = Except.ok l
      ∧ l.Perm (([] : List DocRecord).filter (fun r => decide (r.userId = jsTrim "x")))
      ∧ l.Pairwise (fun a b => b.timestamp ≤ a.timestamp)
      ∧ (([] : List DocRecord).filter (fun r => decide (r.userId = jsTrim "x")) = [] → l = []) :=
  getByUser_spec "x" ⟨[], 1⟩ (by decide)

/-- Deleting the key of a record with positive id succeeds and performs
`deleteStep`. -/
theorem delete_ok_of_pos (d : DocRecord) (s : DBState) (hd : 0 < d.id) :
    delete (Value.vnum (d.id : Int)) s = Except.ok (deleteStep s d) := by
  have hvalid : isValidId (Value.vnum (d.id : Int)) = true := by
    simp only [isValidId, decide_eq_true_eq]
    omega
  simp [delete, hvalid, deleteStep]

/-- The sequence of deletes issued by `clearUserDocuments` succeeds when
every id is positive, and folds the per-delete state change. -/
theorem foldlM_deleteAll :
    ∀ (l : List DocRecord) (s : DBState), (∀ d ∈ l, 0 < d.id) →
      l.foldlM (fun s d => delete (Value.vnum (d.id : Int)) s) s =
        Except.ok (l.foldl deleteStep s)
  | [], _, _ => rfl
  | d :: rest, s, h => by
    rw [List.foldlM_cons, delete_ok_of_pos d s (h d (List.mem_cons_self d rest))]
    show Except.bind _ _ = _
    rw [Except.bind]
    exact foldlM_deleteAll rest (deleteStep s d)
      (fun x hx => h x (List.mem_cons_of_mem d hx))

/-- Membership after the delete fold: exactly the original records whose key
matches none of the deleted ids. -/
theorem mem_foldl_deleteStep :
    ∀ (l : List DocRecord) (s : DBState) (r : DocRecord),
      r ∈ (l.foldl deleteStep s).records ↔
        r ∈ s.records ∧ ∀ d ∈ l, keyEq (Value.vnum (d.id : Int)) r.id = false
  | [], s, r => by simp
  | d :: rest, s, r => by
    rw [List.foldl_cons, mem_foldl_deleteStep rest (deleteStep s d) r]
    simp only [deleteStep, List.mem_filter, List.forall_mem_cons,
      decide_eq_true_eq, Bool.not_eq_true]
    constructor
    · rintro ⟨⟨hmem, hne⟩, hrest⟩
      exact ⟨hmem, hne, hrest⟩
    · rintro ⟨hmem, hne, hrest⟩
      exact ⟨⟨hmem, hne⟩, hrest⟩

/-- C6: for a non-empty `userId` on a well-formed store,
`clearUserDocuments` succeeds, returns the count of the records of that user as of
its initial read, and a subsequent `getByUser` returns the empty list. -/
theorem clearUserDocuments_spec (u : String) (st : DBState) (hwf : StateWF st)
    (hu : u ≠ "") :
    ∃ st2, clearUserDocuments (Value.vstr u) st =
        Except.ok
          ((st.records.filter (fun r => decide (r.userId = jsTrim u))).length, st2)
      ∧ getByUser (Value.vstr u) st2 = Except.ok [] := by
  have hvalid : isNonEmptyString (Value.vstr u) = true := by
    simp [isNonEmptyString, hu]
  have hperm : (((st.records.filter (fun r => decide (r.userId = jsTrim u)))).mergeSort
      (fun a b => decide (b.timestamp ≤ a.timestamp))).Perm
      (st.records.filter (fun r => decide (r.userId = jsTrim u))) :=
    List.mergeSort_perm _ _
  have hGet : getByUser (Value.vstr u) st = Except.ok
      ((st.records.filter (fun r => decide (r.userId = jsTrim u))).mergeSort
        (fun a b => decide (b.timestamp ≤ a.timestamp))) := by
    simp [getByUser, hvalid, save.asString]
  have hpos : ∀ d ∈ (st.records.filter (fun r => decide (r.userId = jsTrim u))).mergeSort
      (fun a b => decide (b.timestamp ≤ a.timestamp)), 0 < d.id := by
    intro d hd
    exact (hwf.2 d (List.mem_of_mem_filter (hperm.mem_iff.mp hd))).1
  have hfold := foldlM_deleteAll _ st hpos
  refine ⟨((st.records.filter (fun r => decide (r.userId = jsTrim u))).mergeSort
    (fun a b => decide (b.timestamp ≤ a.timestamp))).foldl deleteStep st, ?_, ?_⟩
  · rw [clearUserDocuments, if_neg (by simp [hvalid])]
    show Except.bind _ _ = _
    rw [hGet, Except.bind]
    rw [hfold]
    show Except.bind _ _ = _
    rw [Except.bind]
    have hlen := hperm.length_eq
    simp [hlen, pure, Except.pure]
  · have hnone : (((st.records.filter (fun r => decide (r.userId = jsTrim u))).mergeSort
        (fun a b => decide (b.timestamp ≤ a.timestamp))).foldl deleteStep st).records.filter
        (fun r => decide (r.userId = jsTrim u)) = [] := by
      rw [List.filter_eq_nil_iff]
      intro r hr
      obtain ⟨hrs, hall⟩ := (mem_foldl_deleteStep _ st r).mp hr
      intro hru
      have hrF : r ∈ st.records.filter (fun r => decide (r.userId = jsTrim u)) :=
        List.mem_filter.mpr ⟨hrs, hru⟩
      have := hall r (hperm.mem_iff.mpr hrF)
      simp [keyEq] at this
    simp [getByUser, hvalid, save.asString, hnone, List.mergeSort_nil]

/-- C6 witness: clearing a one-record store for its owner. -/
theorem clearUserDocuments_spec_witness :
    ∃ st2, clearUserDocuments (Value.vstr "c")
        ⟨[⟨1, "d", "t", Value.vobj [], "c", 5, "", Value.vstr "unknown"⟩], 2⟩ =
        Except.ok
          ((([⟨1, "d", "t", Value.vobj [], "c", 5, "", Value.vstr "unknown"⟩] :
              List DocRecord).filter
            (fun r => decide (r.userId = jsTrim "c"))).length, st2)
      ∧ getByUser (Value.vstr "c") st2 = Except.ok [] :=
  clearUserDocuments_spec "c"
    ⟨[⟨1, "d", "t", Value.vobj [], "c", 5, "", Value.vstr "unknown"⟩], 2⟩
    ⟨by decide, by
      intro r hr
      rcases List.mem_singleton.mp hr with rfl
      exact ⟨by decide, by decide⟩⟩
    (by decide)

/-- C5: every operation runs its argument validation first; a violated
precondition yields the `ValidationError` naming the offending parameter and
the operation performs no I/O — in this model it returns the error with no
successor state, so no record is created or modified. -/
theorem validation_precedes_io (st : DBState) (now : Nat) (ca : String) :
    (∀ d t a u, (isNonEmptyString d && isNonEmptyString t && isTruthyObject a
        && isNonEmptyString u) = false →
      ∃ p, save d t a u now ca st = Except.error (DBError.validationError p))
    ∧ (∀ u, isNonEmptyString u = false →
        getByUser u st =
          Except.error (DBError.validationError "Invalid userId provided"))
    ∧ (∀ i, isValidId i = false →
        getById i st =
          Except.error (DBError.validationError "Invalid id provided"))
    ∧ (∀ i, isValidId i = false →
        delete i st =
          Except.error (DBError.validationError "Invalid id provided"))
    ∧ (∀ u, isNonEmptyString u = false →
        clearUserDocuments u st =
          Except.error (DBError.validationError "Invalid userId provided")) := by
  refine ⟨?_, ?_, ?_, ?_, ?_⟩
  · intro d t a u h
    by_cases hd : isNonEmptyString d = true
    · by_cases ht : isNonEmptyString t = true
      · by_cases ha : isTruthyObject a = true
        · by_cases hu : isNonEmptyString u = true
          · exfalso
            simp [hd, ht, ha, hu] at h
          · exact ⟨"Invalid userId provided", by simp [save, hd, ht, ha, hu]⟩
        · exact ⟨"Invalid data provided", by simp [save, hd, ht, ha]⟩
      · exact ⟨"Invalid title provided", by simp [save, hd, ht]⟩
    · exact ⟨"Invalid docId provided", by simp [save, hd]⟩
  · intro u h
    simp [getByUser, h]
  · intro i h
    simp [getById, h]
  · intro i h
    simp [delete, h]
  · intro u h
    simp [clearUserDocuments, h]

/-- C5 witness: each operation rejecting a concrete bad argument. -/
theorem validation_precedes_io_witness :
    (∃ p, save Value.vnull Value.vnull Value.vnull Value.vnull 0 "" ⟨[], 1⟩ =
        Except.error (DBError.validationError p))
    ∧ getByUser (Value.vstr "") ⟨[], 1⟩ =
        Except.error (DBError.validationError "Invalid userId provided")
    ∧ getById Value.vnull ⟨[], 1⟩ =
        Except.error (DBError.validationError "Invalid id provided")
    ∧ delete (Value.vbool true) ⟨[], 1⟩ =
        Except.error (DBError.validationError "Invalid id provided")
    ∧ clearUserDocuments (Value.vnum 3) ⟨[], 1⟩ =
        Except.error (DBError.validationError "Invalid userId provided") :=
  ⟨(validation_precedes_io ⟨[], 1⟩ 0 "").1 Value.vnull Value.vnull Value.vnull
      Value.vnull (by decide),
    (validation_precedes_io ⟨[], 1⟩ 0 "").2.1 (Value.vstr "") (by decide),
    (validation_precedes_io ⟨[], 1⟩ 0 "").2.2.1 Value.vnull (by decide),
    (validation_precedes_io ⟨[], 1⟩ 0 "").2.2.2.1 (Value.vbool true) (by decide),
    (validation_precedes_io ⟨[], 1⟩ 0 "").2.2.2.2 (Value.vnum 3) (by decide)⟩

/-- C7 counterexample: the guard `!id` rejects the falsy integer `0`, so
`getById(0)` and `delete(0)` throw `ValidationError`, contradicting the claim
that every integer id, including 0, is accepted. -/
theorem id_zero_rejected_counterexample :
    getById (Value.vnum 0) ⟨[], 1⟩ =
        Except.error (DBError.validationError "Invalid id provided")
    ∧ delete (Value.vnum 0) ⟨[], 1⟩ =
        Except.error (DBError.validationError "Invalid id provided") :=
  ⟨rfl, rfl⟩

/-- C7 amended: the operations `getById` and `delete` accept exactly the non-empty strings
and the nonzero numbers; the empty string, the number `0` and every
non-string non-number argument are rejected with `ValidationError`. -/
theorem id_validation_amended (id : Value) (st : DBState) :
    (isValidId id = false →
      getById id st = Except.error (DBError.validationError "Invalid id provided")
      ∧ delete id st = Except.error (DBError.validationError "Invalid id provided"))
    ∧ (isValidId id = true →
      (∃ res, getById id st = Except.ok res) ∧ (∃ st2, delete id st = Except.ok st2))
    ∧ (isValidId id = true ↔
      (∃ s, id = Value.vstr s ∧ s ≠ "") ∨ (∃ n, id = Value.vnum n ∧ n ≠ 0)) := by
  refine ⟨?_, ?_, ?_⟩
  · intro h
    exact ⟨by simp [getById, h], by simp [delete, h]⟩
  · intro h
    exact ⟨⟨st.records.find? (fun r => keyEq id r.id), by simp [getById, h]⟩,
      ⟨{ st with records := st.records.filter (fun r => ¬ keyEq id r.id) },
        by simp [delete, h]⟩⟩
  · cases id <;> simp [isValidId]

/-- C7 witness: rejection at `0`, acceptance at a non-empty string. -/
theorem id_validation_amended_witness :
    (getById (Value.vnum 0) ⟨[], 1⟩ =
        Except.error (DBError.validationError "Invalid id provided")
      ∧ delete (Value.vnum 0) ⟨[], 1⟩ =
        Except.error (DBError.validationError "Invalid id provided"))
    ∧ (∃ res, getById (Value.vstr "a") ⟨[], 1⟩ = Except.ok res)
    ∧ (∃ st2, delete (Value.vstr "a") ⟨[], 1⟩ = Except.ok st2) :=
  ⟨(id_validation_amended (Value.vnum 0) ⟨[], 1⟩).1 (by decide),
    ((id_validation_amended (Value.vstr "a") ⟨[], 1⟩).2.1 (by decide)).1,
    ((id_validation_amended (Value.vstr "a") ⟨[], 1⟩).2.1 (by decide)).2⟩

/-- C8: deleting a valid id that names no stored record succeeds, and the
committed transaction leaves the store exactly as it was. -/
theorem delete_nonexistent_ok (id : Value) (st : DBState)
    (hv : isValidId id = true) (habs : ∀ r ∈ st.records, keyEq id r.id = false) :
    delete id st = Except.ok st := by
  have hfilter : st.records.filter (fun r => ¬ keyEq id r.id) = st.records := by
    apply List.filter_eq_self.mpr
    intro r hr
    simp [habs r hr]
  cases st with
  | mk recs nid =>
    simp only [delete, hv]
    rw [if_neg (by simp)]
    simp only at hfilter
    rw [hfilter]

/-- C8 witness: deleting an absent key from the empty store. -/
theorem delete_nonexistent_ok_witness :
    delete (Value.vstr "a") ⟨[], 1⟩ = Except.ok ⟨[], 1⟩ :=
  delete_nonexistent_ok (Value.vstr "a") ⟨[], 1⟩ (by decide)
    (fun r hr => absurd hr (List.not_mem_nil r))

/-- C9: calling `getById` on a valid id with no matching record resolves to the
`null` sentinel (`none`), not an error. -/
theorem getById_nonexistent_sentinel (id : Value) (st : DBState)
    (hv : isValidId id = true) (habs : ∀ r ∈ st.records, keyEq id r.id = false) :
    getById id st = Except.ok none := by
  simp only [getById, hv]
  rw [if_neg (by simp)]
  rw [List.find?_eq_none.mpr (fun r hr => by simp [habs r hr])]

/-- C9 witness: looking up an absent string key in the empty store. -/
theorem getById_nonexistent_sentinel_witness :
    getById (Value.vstr "doesnotexist") ⟨[], 1⟩ = Except.ok none :=
  getById_nonexistent_sentinel (Value.vstr "doesnotexist") ⟨[], 1⟩ (by decide)
    (fun r hr => absurd hr (List.not_mem_nil r))

/-- C10: the stored top-level `docType` is copied from the raw, unsanitized
`data.docType` when that value is truthy and is `"unknown"` otherwise (also
for a present-but-falsy value such as `""`); the copy of the same property
inside the sanitized `data` payload is escaped. -/
theorem save_docType_raw (d t u : String) (data : Value) (now : Nat)
    (ca : String) (st : DBState) (hd : d ≠ "") (ht : t ≠ "") (hu : u ≠ "")
    (hdata : isTruthyObject data = true) :
    ∃ rec st2, save (Value.vstr d) (Value.vstr t) data (Value.vstr u) now ca st =
        Except.ok (st.nextId, st2)
      ∧ st2.records = st.records ++ [rec]
      ∧ rec.docType = jsOrDefault (getProp data "docType") "unknown"
      ∧ (∀ w, getProp data "docType" = some w → w.truthy = true → rec.docType = w)
      ∧ (∀ w, getProp data "docType" = some w → w.truthy = false →
          rec.docType = Value.vstr "unknown")
      ∧ (getProp data "docType" = none → rec.docType = Value.vstr "unknown")
      ∧ (∀ s, getProp data "docType" = some (Value.vstr s) →
          getProp rec.data "docType" = some (Value.vstr (escapeHtml s))) := by
  refine ⟨⟨st.nextId, jsTrim d, jsTrim t, sanitizeData data, jsTrim u, now, ca,
      jsOrDefault (getProp data "docType") "unknown"⟩,
    ⟨st.records ++
      [⟨st.nextId, jsTrim d, jsTrim t, sanitizeData data, jsTrim u, now, ca,
        jsOrDefault (getProp data "docType") "unknown"⟩],
      st.nextId + 1⟩, ?_, rfl, rfl, ?_, ?_, ?_, ?_⟩
  · simp [save, isNonEmptyString, hd, ht, hu, hdata, save.asString]
  · intro w hw htr
    simp [jsOrDefault, hw, htr]
  · intro w hw htr
    simp [jsOrDefault, hw, htr]
  · intro hnone
    simp [jsOrDefault, hnone]
  · intro s hs
    cases data with
    | vobj kvs =>
      simp only [getProp] at hs
      simp [getProp, sanitizeData, lookup_sanitizeEntries, hs, sanitizeValue]
    | vnull => simp [getProp] at hs
    | vbool b => simp [getProp] at hs
    | vnum n => simp [getProp] at hs
    | vstr s1 => simp [getProp] at hs
    | varr xs => simp [getProp] at hs

/-- C10 witness: a markup-bearing `docType` is stored raw at top level and
escaped inside the sanitized payload. -/
theorem save_docType_raw_witness :
    ∃ rec st2, save (Value.vstr "a") (Value.vstr "b")
        (Value.vobj [("docType", Value.vstr "a<b")]) (Value.vstr "c") 0 ""
        ⟨[], 1⟩ = Except.ok (1, st2)
      ∧ st2.records = [] ++ [rec]
      ∧ rec.docType = jsOrDefault
          (getProp (Value.vobj [("docType", Value.vstr "a<b")]) "docType") "unknown"
      ∧ (∀ w, getProp (Value.vobj [("docType", Value.vstr "a<b")]) "docType" = some w →
          w.truthy = true → rec.docType = w)
      ∧ (∀ w, getProp (Value.vobj [("docType", Value.vstr "a<b")]) "docType" = some w →
          w.truthy = false → rec.docType = Value.vstr "unknown")
      ∧ (getProp (Value.vobj [("docType", Value.vstr "a<b")]) "docType" = none →
          rec.docType = Value.vstr "unknown")
      ∧ (∀ s, getProp (Value.vobj [("docType", Value.vstr "a<b")]) "docType" =
            some (Value.vstr s) →
          getProp rec.data "docType" = some (Value.vstr (escapeHtml s))) :=
  save_docType_raw "a" "b" "c" (Value.vobj [("docType", Value.vstr "a<b")]) 0 ""
    ⟨[], 1⟩ (by decide) (by decide) (by decide) rfl

end DocsDB
